import Mathlib

/-!
Verification of the trading bot's signal-generation and position-reconciliation
engine.  Numbers are embedded as exact rationals; Python `round(x, n)`
(round-half-to-even) and `int(x)` (truncation toward zero) are modelled
explicitly.  Arrays are Lean lists; a NaN-able numpy array is a list of
`Option ℚ` with `none` standing for NaN.
-/

namespace TradingBot

/-- Round a rational to the nearest integer, ties to the even integer
(the rounding used by Python's `round`). -/
def roundHE (q : ℚ) : ℤ :=
  if q - ⌊q⌋ < 1 / 2 then ⌊q⌋
  else if 1 / 2 < q - ⌊q⌋ then ⌊q⌋ + 1
  else if 2 ∣ ⌊q⌋ then ⌊q⌋ else ⌊q⌋ + 1

/-- Python `round(q, nd)`: round to `nd` decimal places, ties to even. -/
def pyRound (nd : ℕ) (q : ℚ) : ℚ :=
  ((roundHE (q * 10 ^ nd) : ℤ) : ℚ) / 10 ^ nd

/-- Python `int(q)`: truncation toward zero. -/
def pyInt (q : ℚ) : ℤ :=
  if 0 ≤ q then ⌊q⌋ else ⌈q⌉

/-! ## PositionManager (src/trader/managers.py)

Risk parameters held by `PositionManager.__init__` from the `risk` /
`instrument` config sections. -/

structure RiskParams where
  max_risk : ℚ
  tol : ℚ
  contract_size : ℚ
  deriving Repr, DecidableEq

/-- `PositionManager._get_target_pos`:
`atr = contracts[bar_interval].atr(period)[-1] * tol` and
`target_pos = round((max_risk / atr) * signal_strength, 6)`.
`atrLast` is the last ATR value of the reference series. -/
def getTargetPos (max_risk atrLast tol ss : ℚ) : ℚ :=
  pyRound 6 ((max_risk / (atrLast * tol)) * ss)

/-- `PositionManager._get_target_leverage`:
`target_lever = int(target_notional / max_risk)` followed by
`target_lever = 100 if target_lever > 100 else target_lever`. -/
def getTargetLeverage (target_notional max_risk : ℚ) : ℤ :=
  let t := pyInt (target_notional / max_risk)
  if 100 < t then 100 else t

/-- The four target fields computed by `PositionManager._calc_target`. -/
structure Target where
  pos : ℚ
  notional : ℚ
  lever : ℤ
  qty : ℚ
  deriving Repr, DecidableEq

/-- `PositionManager._calc_target`: runs `_get_target_pos`,
`_get_target_notional_size` (`notional = mark_price * target_pos`),
`_get_target_leverage` and `_get_target_contracts`
(`target_qty = target_pos / contract_size`). -/
def calcTarget (p : RiskParams) (atrLast ss mark_price : ℚ) : Target :=
  let tpos := getTargetPos p.max_risk atrLast p.tol ss
  let tnot := mark_price * tpos
  { pos := tpos
    notional := tnot
    lever := getTargetLeverage tnot p.max_risk
    qty := tpos / p.contract_size }

/-- The fields of one `PositionData` snapshot that reconciliation reads
(`src/trader/objects.py`); `lever`/`qty` are already coerced to
`int`/`float` with falsy values replaced by zero, as `_calc_diff` does. -/
structure PositionData where
  lever : ℤ
  qty : ℚ
  deriving Repr, DecidableEq

/-- `PositionManager._calc_diff`: a missing snapshot (`None`, the value
`DataManager.current_posdata` yields when the exchange reports no
position) returns the full target; otherwise the component-wise
difference of target and current. -/
def calcDiff (target_lever : ℤ) (target_qty : ℚ) (pos : Option PositionData) :
    ℤ × ℚ :=
  match pos with
  | none => (target_lever, target_qty)
  | some pd => (target_lever - pd.lever, target_qty - pd.qty)

inductive Side where
  | buy
  | sell
  deriving Repr, DecidableEq

/-- One exchange call issued by `PositionManager.execute`. -/
inductive ExchCall where
  | setLeverage (lever : ℤ)
  | placeOrder (side : Side) (sz : ℚ)
  deriving Repr, DecidableEq

def isLeverCall : ExchCall → Bool
  | .setLeverage _ => true
  | _ => false

def isOrderCall : ExchCall → Bool
  | .placeOrder _ _ => true
  | _ => false

/-- The sequence of exchange calls `PositionManager.execute` issues after
`_calc_target`/`_calc_diff`: `set_leverage` when `lever_diff` is nonzero
(Python truthiness of the int), then one market order when
`abs(qty_diff) > 1`, side `buy` if `qty_diff > 0` else `sell`, size
`abs(round(qty_diff, 1))`. -/
def executeCalls (target_lever : ℤ) (target_qty : ℚ)
    (pos : Option PositionData) : List ExchCall :=
  let d := calcDiff target_lever target_qty pos
  (if d.1 ≠ 0 then [ExchCall.setLeverage target_lever] else []) ++
    (if 1 < |d.2| then
      [ExchCall.placeOrder (if 0 < d.2 then Side.buy else Side.sell)
        |pyRound 1 d.2|]
    else [])

/-- `execute` for a full cycle: compute targets from the signal, then
reconcile against the live snapshot. -/
def executeFull (p : RiskParams) (atrLast mark_price : ℚ)
    (pos : Option PositionData) (ss : ℚ) : List ExchCall :=
  let t := calcTarget p atrLast ss mark_price
  executeCalls t.lever t.qty pos

/-- The relevant part of a gateway response: `ok` is `code == "0"`,
`ordId` is `result["data"][0]["ordId"]`, `msg` the `sMsg` of the data
entry. -/
structure ExchResult where
  ok : Bool
  ordId : String
  msg : String
  deriving Repr, DecidableEq

/-- A log line emitted by `PositionManager`. -/
inductive LogEvent where
  | failure (what returned : String)
  | success (what : String)
  deriving Repr, DecidableEq

/-- `PositionManager.process_result`: on a non-`"0"` code log the failure
message together with the exchange's `sMsg`, otherwise log success. -/
def processResult (r : ExchResult) (fail_msg success_msg : String) :
    List LogEvent :=
  if r.ok then [LogEvent.success success_msg]
  else [LogEvent.failure fail_msg r.msg]

/-- The mutable fields of `PositionManager` touched by `execute`. -/
structure PMState where
  target_pos : ℚ
  target_notional : ℚ
  target_lever : ℤ
  target_qty : ℚ
  last_orderid : Option String
  deriving Repr, DecidableEq

/-- One run of `PositionManager.execute`, with the gateway responses for
the (potential) `set_leverage` and `place_order` calls supplied as
parameters: `_calc_target` overwrites the four target fields first, each
issued call is fed to `process_result`, and after a placed order
`self.last_orderid = result["data"][0]["ordId"]` runs unconditionally,
whatever the response code was. -/
def executeStep (st : PMState) (p : RiskParams) (atrLast ss mark_price : ℚ)
    (pos : Option PositionData) (levRes ordRes : ExchResult) :
    PMState × List LogEvent :=
  let t := calcTarget p atrLast ss mark_price
  let d := calcDiff t.lever t.qty pos
  let levLogs :=
    if d.1 ≠ 0 then
      processResult levRes "Failed to set leverage" "Set leverage" else []
  let ordLogs :=
    if 1 < |d.2| then
      processResult ordRes "Failed to place order" "Placed order" else []
  ({ target_pos := t.pos
     target_notional := t.notional
     target_lever := t.lever
     target_qty := t.qty
     last_orderid :=
       if 1 < |d.2| then some ordRes.ordId else st.last_orderid },
   levLogs ++ ordLogs)

/-! ## SignalManager (src/trader/managers.py) -/

/-- `SignalManager.combine_signals`: `"sum"` averages (0 on an empty
list, by the Python truthiness guard), `"vote"` divides the sum by its
absolute value when that is positive (0 otherwise); any other
`combine_kind` falls through and returns `None`. -/
def combineSignals (signals : List ℚ) (combine_kind : String) : Option ℚ :=
  if combine_kind = "sum" then
    some (if signals ≠ [] then signals.sum / (signals.length : ℚ) else 0)
  else if combine_kind = "vote" then
    some (if 0 < |signals.sum| then signals.sum / |signals.sum| else 0)
  else none

/-- The tail of `SignalManager.generate_signals` acting on the stored
`final_signal`: combine the freshly evaluated per-strategy signals, test
`signal_has_changed` (strict `!=` against the stored value), then store
the new value unconditionally.  Returns the `changed` flag and the new
stored value. -/
def generateSignalsStep (final_signal : Option ℚ) (signals : List ℚ)
    (combine_kind : String) : Bool × Option ℚ :=
  let new_signal := combineSignals signals combine_kind
  (decide (new_signal ≠ final_signal), new_signal)

/-- `TradingSystem.job` (src/okx_bot.py): reconcile via
`PositionManager.execute` only when the aggregator reported a change;
the first component is `some calls` (no calls at all when the signal did
not change) or `none` for the crash an unknown `combine_kind`'s `None`
signal would cause inside `execute`. -/
def jobCalls (final_signal : Option ℚ) (signals : List ℚ)
    (combine_kind : String) (p : RiskParams) (atrLast mark_price : ℚ)
    (pos : Option PositionData) : Option (List ExchCall) × Option ℚ :=
  let r := generateSignalsStep final_signal signals combine_kind
  (if r.1 then r.2.map (executeFull p atrLast mark_price pos) else some [],
   r.2)

/-! ## Contract (src/trader/objects.py) -/

/-- The OHLCV arrays of a `Contract` plus its bar interval. -/
structure Contract where
  opens : List ℚ
  highs : List ℚ
  lows : List ℚ
  closes : List ℚ
  volumes : List ℚ
  interval : ℕ
  deriving Repr, DecidableEq

/-- The slice `a[k-1::k]`, whose `j`-th element is `a[(j+1)*k-1]`,
taken to `len(a) // k` elements as the numpy assignment requires. -/
def resampleSlice (xs : List ℚ) (k : ℕ) : List ℚ :=
  (List.range (xs.length / k)).map (fun j => xs.getD ((j + 1) * k - 1) 0)

/-- The `j`-th stride-aligned window of width `k`:
`a[j*k], …, a[j*k+k-1]`, as produced by
`sliding_window_view(a, k)[::k, :]`. -/
def strideWindow (xs : List ℚ) (k j : ℕ) : List ℚ :=
  (List.range k).map (fun i => xs.getD (j * k + i) 0)

/-- `Contract._resample` with `np.max`: per-window maximum. -/
def resampleMax (xs : List ℚ) (k : ℕ) : List ℚ :=
  (List.range (xs.length / k)).map
    (fun j => (strideWindow xs k j).foldl max (xs.getD (j * k) 0))

/-- `Contract._resample` with `np.min`: per-window minimum. -/
def resampleMin (xs : List ℚ) (k : ℕ) : List ℚ :=
  (List.range (xs.length / k)).map
    (fun j => (strideWindow xs k j).foldl min (xs.getD (j * k) 0))

/-- `Contract._resample` with `np.sum`: per-window sum. -/
def resampleSum (xs : List ℚ) (k : ℕ) : List ℚ :=
  (List.range (xs.length / k)).map (fun j => (strideWindow xs k j).sum)

/-- `Contract.resample`: identity at interval 1, otherwise open and close
from the `[k-1::k]` slice, high/low/volume per stride window, interval
multiplied. -/
def Contract.resample (c : Contract) (k : ℕ) : Contract :=
  if k = 1 then c
  else
    { opens := resampleSlice c.opens k
      highs := resampleMax c.highs k
      lows := resampleMin c.lows k
      closes := resampleSlice c.closes k
      volumes := resampleSum c.volumes k
      interval := c.interval * k }

/-! ## strategies/base.py -/

/-- `np.repeat(s, factor)`: each element repeated `factor` times in
place. -/
def repeatEach (k : ℕ) : List ℚ → List ℚ
  | [] => []
  | a :: t => List.replicate k a ++ repeatEach k t

/-- `interpolate(s, datalen)` from src/strategies/base.py: zeros of
length `datalen`, prefix `factor*len(s)` filled with `np.repeat(s,
factor)`, rolled right by `factor` (`np.roll`), first `factor` entries
zeroed. -/
def interpolate (s : List ℚ) (datalen : ℕ) : List ℚ :=
  let factor := datalen / s.length
  let filled := (List.range datalen).map
    (fun i => if i < factor * s.length then (repeatEach factor s).getD i 0
      else 0)
  let rolled := (List.range datalen).map
    (fun i => filled.getD ((i + (datalen - factor)) % datalen) 0)
  (List.range datalen).map (fun i => if i < factor then 0 else rolled.getD i 0)

/-- numpy `>` on possibly-NaN values: any comparison with NaN is
false. -/
def nanGt (a b : Option ℚ) : Bool :=
  match a, b with
  | some x, some y => decide (y < x)
  | _, _ => false

/-- numpy `<` on possibly-NaN values. -/
def nanLt (a b : Option ℚ) : Bool :=
  match a, b with
  | some x, some y => decide (x < y)
  | _, _ => false

/-- `TradeSignalGenerator.gen_overlap_signals`: start from
`np.zeros(len(close))` and write 1 where `lead > lag` and/or −1 where
`lead < lag` depending on `mode`; NaN entries of `lead`/`lag` satisfy
neither mask, and an unknown mode leaves the zeros untouched. -/
def genOverlapSignals (n : ℕ) (lead lag : List (Option ℚ)) (mode : ℕ) :
    List ℚ :=
  (List.range n).map (fun i =>
    let ld := lead.getD i none
    let lg := lag.getD i none
    if mode = 1 then (if nanGt ld lg then 1 else 0)
    else if mode = 2 then (if nanLt ld lg then -1 else 0)
    else if mode = 3 then
      (if nanGt ld lg then 1 else if nanLt ld lg then -1 else 0)
    else 0)

/-! ## MAOverlap (src/Core/custom_factors.py) -/

/-- The recursive tail of talib's EMA: `e_i = (x_i - e_{i-1}) * k +
e_{i-1}`. -/
def emaFrom (k prev : ℚ) : List ℚ → List ℚ
  | [] => []
  | x :: t =>
    let e := (x - prev) * k + prev
    e :: emaFrom k e t

/-- `Contract.ma` with the default `"ema"` kind, i.e. `talib.EMA`:
the first `period - 1` outputs are NaN, the seed at index `period - 1`
is the simple average of the first `period` inputs, and later outputs
follow the EMA recurrence with `k = 2 / (period + 1)`. -/
def ema (period : ℕ) (xs : List ℚ) : List (Option ℚ) :=
  if xs.length < period ∨ period = 0 then List.replicate xs.length none
  else
    let seed := (xs.take period).sum / (period : ℚ)
    List.replicate (period - 1) (none : Option ℚ) ++
      (some seed ::
        (emaFrom (2 / ((period : ℚ) + 1)) seed (xs.drop period)).map some)

/-- `MAOverlap.generate_signals`: lead and lag EMAs of the closes fed to
`gen_overlap_signals`, then `np.nan_to_num` (a no-op here, since the
signal array is built from 0 and ±1 and never holds NaN). -/
def maGenerateSignals (lead lag mode : ℕ) (closes : List ℚ) : List ℚ :=
  genOverlapSignals closes.length (ema lead closes) (ema lag closes) mode

/-! ## Helper lemmas -/

theorem getD_range_map {α : Type} (f : ℕ → α) (n i : ℕ) (d : α) (h : i < n) :
    ((List.range n).map f).getD i d = f i := by
  rw [List.getD_eq_getElem?_getD, List.getElem?_map, List.getElem?_range h]
  rfl

/-- Rounding half-to-even lands within one half of the input. -/
theorem roundHE_dist (q : ℚ) : |(roundHE q : ℚ) - q| ≤ 1 / 2 := by
  have h0 : (⌊q⌋ : ℚ) ≤ q := Int.floor_le q
  have h1 : q < ⌊q⌋ + 1 := Int.lt_floor_add_one q
  rw [abs_le]
  unfold roundHE
  split_ifs with ha hb hc
  · constructor <;> linarith
  · push_cast
    constructor <;> linarith
  · rw [not_lt] at ha hb
    constructor <;> linarith
  · rw [not_lt] at ha hb
    push_cast
    constructor <;> linarith

theorem getD_repeatEach (k : ℕ) (hk : 0 < k) (s : List ℚ) :
    ∀ i : ℕ, i < k * s.length → (repeatEach k s).getD i 0 = s.getD (i / k) 0 := by
  induction s with
  | nil => intro i hi; simp at hi
  | cons a t ih =>
    intro i hi
    rw [List.length_cons, Nat.mul_succ] at hi
    unfold repeatEach
    by_cases h : i < k
    · rw [List.getD_append _ _ _ _ (by simpa using h),
        Nat.div_eq_of_lt h]
      simp [List.getD_eq_getElem?_getD, List.getElem?_replicate, h]
    · push_neg at h
      rw [List.getD_append_right _ _ _ _ (by simpa using h),
        List.length_replicate, ih (i - k) (by omega)]
      have hdiv : i / k = (i - k) / k + 1 := by
        rw [Nat.div_eq_sub_div hk h]
      rw [hdiv]
      simp

/-! ## Claim theorems -/

/-- Claim C1 (code bug): the spec requires
`target_leverage = clamp(int(target_notional / max_risk), 0, 100)`, but
`_get_target_leverage` only caps the value above at 100 and never clamps
below at 0.  At the short-signal input `target_notional = -500000`,
`max_risk = 1000` (signal −1, ATR 100, tol 1, mark price 50000) the code
produces `target_lever = -500`, outside `[0, 100]`. -/
theorem claim1_leverage_negative_on_short :
    getTargetLeverage (-500000) 1000 = -500 ∧
      getTargetLeverage (-500000) 1000 < 0 := by
  have hc : ⌈((-500000 : ℚ) / 1000)⌉ = -500 := by
    rw [show ((-500000 : ℚ) / 1000) = ((-500 : ℤ) : ℚ) by norm_num,
      Int.ceil_intCast]
  have hp : pyInt ((-500000 : ℚ) / 1000) = -500 := by
    unfold pyInt
    rw [if_neg (by norm_num), hc]
  have h : getTargetLeverage (-500000) 1000 = -500 := by
    simp only [getTargetLeverage]
    rw [hp, if_neg (by norm_num)]
  exact ⟨h, by rw [h]; norm_num⟩

/-- Claim C3 (code bug): the spec requires each resampled bar's open to
be the first constituent source bar's open, but `Contract.resample`
builds the open column from the slice `self.open[interval-1::interval]`,
i.e. the open of the LAST source bar of each window (the same slice it
correctly uses for the close).  On a 2-bar series with opens `[10, 20]`
resampled by 2, the code yields open 20 where the spec demands 10; the
high/low/close/volume columns follow the spec. -/
theorem claim3_resample_open_from_last_bar :
    Contract.resample
        { opens := [10, 20], highs := [30, 40], lows := [5, 6],
          closes := [15, 25], volumes := [100, 200], interval := 1 } 2 =
      { opens := [20], highs := [40], lows := [5], closes := [25],
        volumes := [300], interval := 2 } := by
  norm_num [Contract.resample, resampleSlice, resampleMax, resampleMin,
    resampleSum, strideWindow, Contract.mk.injEq,
    show List.range 1 = [0] from rfl, show List.range 2 = [0, 1] from rfl,
    max_def, min_def]

/-- Claim C8: `_calc_diff` treats a missing position snapshot as current
leverage 0 and current quantity 0: the returned diffs are the full
target leverage and target contract quantity. -/
theorem claim8_missing_position_is_flat (target_lever : ℤ) (target_qty : ℚ) :
    calcDiff target_lever target_qty none = (target_lever - 0, target_qty - 0) := by
  simp [calcDiff]

/-- Claim C9, counterexample: doubling `max_risk` does NOT always double
the rounded `target_pos`.  With `max_risk = 3`, ATR `10^7`, tol 1,
signal 1 the unrounded position is `3e-7`, which rounds to 0 at six
decimals, while `max_risk = 6` gives `6e-7`, which rounds to `1e-6`:
`1e-6 ≠ 2 * 0`. -/
theorem claim9_scaling_cex :
    getTargetPos (2 * 3) (10 ^ 7) 1 1 ≠ 2 * getTargetPos 3 (10 ^ 7) 1 1 := by
  norm_num [getTargetPos, pyRound, roundHE]

/-- Claim C9, amended: doubling `max_risk` (ATR, tolerance and
signal_strength fixed) exactly doubles the position before the
round-to-6-decimals step, and the rounded `target_pos` values differ
from exact doubling by at most one final-digit unit, `10^-6`. -/
theorem claim9_scaling_amended (max_risk atrLast tol ss : ℚ) :
    (2 * max_risk / (atrLast * tol)) * ss =
        2 * ((max_risk / (atrLast * tol)) * ss) ∧
      |getTargetPos (2 * max_risk) atrLast tol ss -
          2 * getTargetPos max_risk atrLast tol ss| ≤ 1 / 10 ^ 6 := by
  constructor
  · ring
  · have hx : (2 * max_risk / (atrLast * tol)) * ss * 10 ^ 6 =
        2 * ((max_risk / (atrLast * tol)) * ss * 10 ^ 6) := by ring
    unfold getTargetPos pyRound
    rw [hx]
    set y : ℚ := (max_risk / (atrLast * tol)) * ss * 10 ^ 6 with hy
    have ha := roundHE_dist (2 * y)
    have hb := roundHE_dist y
    rw [abs_le] at ha hb
    have hq : |(roundHE (2 * y) : ℚ) - 2 * (roundHE y : ℚ)| ≤ 3 / 2 := by
      rw [abs_le]
      constructor <;> linarith [ha.1, ha.2, hb.1, hb.2]
    have hzq : ((|roundHE (2 * y) - 2 * roundHE y| : ℤ) : ℚ) ≤ 3 / 2 := by
      push_cast
      exact hq
    have hz : |roundHE (2 * y) - 2 * roundHE y| ≤ 1 := by
      have h2 : ((|roundHE (2 * y) - 2 * roundHE y| : ℤ) : ℚ) < 2 := by
        linarith
      have h3 : |roundHE (2 * y) - 2 * roundHE y| < 2 := by
        exact_mod_cast h2
      omega
    have hrw : ((roundHE (2 * y) : ℤ) : ℚ) / 10 ^ 6 -
        2 * (((roundHE y : ℤ) : ℚ) / 10 ^ 6) =
        ((roundHE (2 * y) - 2 * roundHE y : ℤ) : ℚ) / 10 ^ 6 := by
      push_cast
      ring
    rw [hrw, abs_div]
    have hden : |((10 : ℚ)) ^ 6| = 10 ^ 6 := by
      rw [abs_of_pos]
      norm_num
    rw [hden, div_le_div_iff₀ (by norm_num) (by norm_num)]
    have : |((roundHE (2 * y) - 2 * roundHE y : ℤ) : ℚ)| ≤ 1 := by
      rw [← Int.cast_abs]
      exact_mod_cast hz
    nlinarith [this]

/-- Claim C10: `combine_signals` at the interface edge cases: the empty
list under `"sum"` returns 0 (Python truthiness guard); under `"vote"`
the division by `abs(sum)` is guarded, so a zero sum (the empty list
included) yields 0; and on any nonempty list the `"vote"` result is
exactly one of −1, 0, 1. -/
theorem claim10_combine_edge_cases :
    combineSignals [] "sum" = some 0 ∧
      (∀ signals : List ℚ, signals.sum = 0 →
        combineSignals signals "vote" = some 0) ∧
      (∀ signals : List ℚ, signals ≠ [] →
        combineSignals signals "vote" = some (-1) ∨
          combineSignals signals "vote" = some 0 ∨
          combineSignals signals "vote" = some 1) := by
  have hvote : ∀ signals : List ℚ, combineSignals signals "vote" =
      some (if 0 < |signals.sum| then signals.sum / |signals.sum| else 0) := by
    intro signals
    unfold combineSignals
    rw [if_neg (by decide), if_pos rfl]
  refine ⟨by simp [combineSignals], ?_, ?_⟩
  · intro signals hs
    rw [hvote, hs]
    norm_num
  · intro signals _
    rcases lt_trichotomy signals.sum 0 with hneg | hzero | hpos
    · left
      rw [hvote, if_pos (by rw [abs_of_neg hneg]; linarith),
        abs_of_neg hneg, div_neg, div_self (ne_of_lt hneg)]
    · right; left
      rw [hvote, hzero]
      norm_num
    · right; right
      rw [hvote, if_pos (by rw [abs_of_pos hpos]; linarith),
        abs_of_pos hpos, div_self (ne_of_gt hpos)]

/-- Witness for C10 at concrete inputs: empty-sum, balanced vote, and a
nonempty vote. -/
theorem claim10_combine_edge_cases_witness :
    combineSignals [] "sum" = some 0 ∧
      combineSignals [1, -1] "vote" = some 0 ∧
      (combineSignals [1, 1] "vote" = some (-1) ∨
        combineSignals [1, 1] "vote" = some 0 ∨
        combineSignals [1, 1] "vote" = some 1) := by
  refine ⟨claim10_combine_edge_cases.1,
    claim10_combine_edge_cases.2.1 [1, -1] (by norm_num),
    claim10_combine_edge_cases.2.2 [1, 1] (by simp)⟩

/-- Claim C2: with `(ld, qd)` the diffs computed by `_calc_diff`,
`execute` issues a `set_leverage` call iff `ld ≠ 0`, exactly one order
call iff `|qd|` exceeds the 1-contract minimum increment and zero
otherwise, and any issued order has side buy iff `qd > 0` (else sell)
and size `abs(round(qd, 1))`. -/
theorem claim2_reconciliation_calls (target_lever : ℤ) (target_qty : ℚ)
    (pos : Option PositionData) (ld : ℤ) (qd : ℚ)
    (hd : calcDiff target_lever target_qty pos = (ld, qd)) :
    ((executeCalls target_lever target_qty pos).countP isLeverCall =
        if ld ≠ 0 then 1 else 0) ∧
      ((executeCalls target_lever target_qty pos).countP isOrderCall =
        if 1 < |qd| then 1 else 0) ∧
      (1 < |qd| →
        ExchCall.placeOrder (if 0 < qd then Side.buy else Side.sell)
            |pyRound 1 qd| ∈ executeCalls target_lever target_qty pos) ∧
      (∀ sd z,
        ExchCall.placeOrder sd z ∈ executeCalls target_lever target_qty pos →
          1 < |qd| ∧ sd = (if 0 < qd then Side.buy else Side.sell) ∧
            z = |pyRound 1 qd|) := by
  by_cases h1 : ld = 0 <;> by_cases h2 : 1 < |qd| <;>
    simp [executeCalls, hd, h1, h2, isLeverCall, isOrderCall]

/-- Witness for C2: with target leverage 5, target qty 10 and no open
position, the diffs are (5, 10), so one leverage call and one buy order
of size 10 are issued. -/
theorem claim2_reconciliation_calls_witness :
    ExchCall.placeOrder Side.buy 10 ∈ executeCalls 5 10 none ∧
      (executeCalls 5 10 none).countP isLeverCall = 1 := by
  have h := claim2_reconciliation_calls 5 10 none 5 10 rfl
  constructor
  · have hm := h.2.2.1 (by norm_num)
    have hs : (if (0 : ℚ) < 10 then Side.buy else Side.sell) = Side.buy := by
      norm_num
    have hr : |pyRound 1 (10 : ℚ)| = 10 := by
      norm_num [pyRound, roundHE]
    rwa [hs, hr] at hm
  · have h1 := h.1
    rwa [if_pos (by norm_num)] at h1

/-- Claim C4: `generate_signals` reports `changed = true` iff the newly
combined signal differs from the stored value under exact equality, it
stores the new value unconditionally, and when `changed = false` the
orchestrator's `job` issues no leverage or order calls that cycle. -/
theorem claim4_change_detection (final_signal : Option ℚ) (signals : List ℚ)
    (combine_kind : String) (p : RiskParams) (atrLast mark_price : ℚ)
    (pos : Option PositionData) :
    ((generateSignalsStep final_signal signals combine_kind).1 = true ↔
        combineSignals signals combine_kind ≠ final_signal) ∧
      (generateSignalsStep final_signal signals combine_kind).2 =
        combineSignals signals combine_kind ∧
      ((generateSignalsStep final_signal signals combine_kind).1 = false →
        (jobCalls final_signal signals combine_kind p atrLast mark_price
            pos).1 = some []) := by
  refine ⟨?_, rfl, ?_⟩
  · simp [generateSignalsStep]
  · intro h
    simp [jobCalls, h]

/-- Witness for C4: an empty signal list under `"sum"` combines to 0,
equal to the stored 0, so the cycle issues no calls. -/
theorem claim4_change_detection_witness :
    (jobCalls (some 0) [] "sum" ⟨1000, 1, 1 / 1000⟩ 100 50000 none).1 =
      some [] := by
  have h := claim4_change_detection (some 0) [] "sum" ⟨1000, 1, 1 / 1000⟩
    100 50000 none
  exact h.2.2 (by simp [generateSignalsStep, combineSignals])

/-- Helper: the spec's end-to-end scenario A.  Signal 1, ATR 100,
max_risk 1000, tol 1, mark price 50000, contract size 0.001 give
target position 10, notional 500000, leverage 100 (capped) and
10000 contracts. -/
theorem calcTarget_scenarioA :
    calcTarget ⟨1000, 1, 1 / 1000⟩ 100 1 50000 = ⟨10, 500000, 100, 10000⟩ := by
  norm_num [calcTarget, getTargetPos, getTargetLeverage, pyRound, pyInt,
    roundHE, Target.mk.injEq]

/-- Claim C5, counterexample: in scenario A with a failing `place_order`
response, the failure is logged with the exchange message, yet the run
still overwrites the sizing state: `last_orderid` becomes the (empty)
order id of the failed response and `target_qty` becomes 10000, although
both started as `none`/0 before the failed reconciliation. -/
theorem claim5_failed_order_updates_state :
    (executeStep ⟨0, 0, 0, 0, none⟩ ⟨1000, 1, 1 / 1000⟩ 100 1 50000 none
          ⟨true, "", ""⟩ ⟨false, "", "Insufficient margin"⟩).2 =
        [LogEvent.success "Set leverage",
          LogEvent.failure "Failed to place order" "Insufficient margin"] ∧
      (executeStep ⟨0, 0, 0, 0, none⟩ ⟨1000, 1, 1 / 1000⟩ 100 1 50000 none
          ⟨true, "", ""⟩ ⟨false, "", "Insufficient margin"⟩).1.last_orderid =
        some "" ∧
      (executeStep ⟨0, 0, 0, 0, none⟩ ⟨1000, 1, 1 / 1000⟩ 100 1 50000 none
          ⟨true, "", ""⟩ ⟨false, "", "Insufficient margin"⟩).1.target_qty =
        10000 := by
  refine ⟨?_, ?_, ?_⟩ <;>
    · simp only [executeStep]
      rw [calcTarget_scenarioA]
      try norm_num [calcDiff, processResult]

/-- Claim C5, amended: a failed exchange call is logged together with
the exchange's returned message, but `execute` performs no rollback: the
four target fields are overwritten by `_calc_target` regardless of any
call outcome, and whenever an order call is issued — successful or not —
`last_orderid` is overwritten with the order id of the response. -/
theorem claim5_amended_no_rollback (st : PMState) (p : RiskParams)
    (atrLast ss mark_price : ℚ) (pos : Option PositionData)
    (levRes ordRes : ExchResult) (t : Target) (ld : ℤ) (qd : ℚ)
    (ht : calcTarget p atrLast ss mark_price = t)
    (hd : calcDiff t.lever t.qty pos = (ld, qd)) :
    (ld ≠ 0 → levRes.ok = false →
      LogEvent.failure "Failed to set leverage" levRes.msg ∈
        (executeStep st p atrLast ss mark_price pos levRes ordRes).2) ∧
      (1 < |qd| → ordRes.ok = false →
        LogEvent.failure "Failed to place order" ordRes.msg ∈
          (executeStep st p atrLast ss mark_price pos levRes ordRes).2) ∧
      (executeStep st p atrLast ss mark_price pos levRes ordRes).1 =
        ⟨t.pos, t.notional, t.lever, t.qty,
          if 1 < |qd| then some ordRes.ordId else st.last_orderid⟩ := by
  subst ht
  refine ⟨?_, ?_, ?_⟩
  · intro h1 h2
    simp [executeStep, hd, processResult, h1, h2]
  · intro h1 h2
    simp [executeStep, hd, processResult, h1, h2]
  · simp [executeStep, hd]

/-- Witness for the amended C5 in scenario A with a rejected order. -/
theorem claim5_amended_no_rollback_witness :
    LogEvent.failure "Failed to place order" "Insufficient margin" ∈
      (executeStep ⟨0, 0, 0, 0, none⟩ ⟨1000, 1, 1 / 1000⟩ 100 1 50000 none
        ⟨true, "", ""⟩ ⟨false, "", "Insufficient margin"⟩).2 := by
  have h := claim5_amended_no_rollback ⟨0, 0, 0, 0, none⟩ ⟨1000, 1, 1 / 1000⟩
    100 1 50000 none ⟨true, "", ""⟩ ⟨false, "", "Insufficient margin"⟩
    ⟨10, 500000, 100, 10000⟩ 100 10000 calcTarget_scenarioA rfl
  exact h.2.1 (by norm_num) rfl

/-- Helper: the value `gen_overlap_signals` writes at one index is
always one of −1, 0, 1, whatever the mode and the (possibly NaN)
moving-average entries. -/
theorem overlapValue_mem (ld lg : Option ℚ) (mode : ℕ) :
    (if mode = 1 then (if nanGt ld lg then (1 : ℚ) else 0)
      else if mode = 2 then (if nanLt ld lg then -1 else 0)
      else if mode = 3 then
        (if nanGt ld lg then 1 else if nanLt ld lg then -1 else 0)
      else 0) = -1 ∨
    (if mode = 1 then (if nanGt ld lg then (1 : ℚ) else 0)
      else if mode = 2 then (if nanLt ld lg then -1 else 0)
      else if mode = 3 then
        (if nanGt ld lg then 1 else if nanLt ld lg then -1 else 0)
      else 0) = 0 ∨
    (if mode = 1 then (if nanGt ld lg then (1 : ℚ) else 0)
      else if mode = 2 then (if nanLt ld lg then -1 else 0)
      else if mode = 3 then
        (if nanGt ld lg then 1 else if nanLt ld lg then -1 else 0)
      else 0) = 1 := by
  cases hgt : nanGt ld lg <;> cases hlt : nanLt ld lg <;>
    split_ifs <;> norm_num

/-- Helper: when either moving-average entry is NaN, every mode's mask
is false, so `gen_overlap_signals` leaves the zero in place. -/
theorem overlapValue_none (ld lg : Option ℚ) (mode : ℕ)
    (h : ld = none ∨ lg = none) :
    (if mode = 1 then (if nanGt ld lg then (1 : ℚ) else 0)
      else if mode = 2 then (if nanLt ld lg then -1 else 0)
      else if mode = 3 then
        (if nanGt ld lg then 1 else if nanLt ld lg then -1 else 0)
      else 0) = 0 := by
  have hgt : nanGt ld lg = false := by
    rcases h with h | h <;> subst h
    · cases lg <;> rfl
    · cases ld <;> rfl
  have hlt : nanLt ld lg = false := by
    rcases h with h | h <;> subst h
    · cases lg <;> rfl
    · cases ld <;> rfl
  simp [hgt, hlt]

/-- Claim C6: for every `MAOverlap` parameterisation and every close
series, `generate_signals` returns as many values as the input, every
value is a genuine number in {−1, 0, 1} (never NaN), and every bar on
which the lead or lag EMA is still undefined (warm-up) carries 0. -/
theorem claim6_warmup_is_neutral (lead lag mode : ℕ) (closes : List ℚ) :
    (maGenerateSignals lead lag mode closes).length = closes.length ∧
      (∀ i : ℕ, (maGenerateSignals lead lag mode closes).getD i 0 = -1 ∨
        (maGenerateSignals lead lag mode closes).getD i 0 = 0 ∨
        (maGenerateSignals lead lag mode closes).getD i 0 = 1) ∧
      (∀ i : ℕ, i < closes.length →
        ((ema lead closes).getD i none = none ∨
          (ema lag closes).getD i none = none) →
        (maGenerateSignals lead lag mode closes).getD i 0 = 0) := by
  refine ⟨by simp [maGenerateSignals, genOverlapSignals], ?_, ?_⟩
  · intro i
    by_cases hi : i < closes.length
    · simp only [maGenerateSignals, genOverlapSignals]
      rw [getD_range_map _ _ _ _ hi]
      exact overlapValue_mem _ _ _
    · push_neg at hi
      rw [List.getD_eq_default _ _
        (by simpa [maGenerateSignals, genOverlapSignals] using hi)]
      norm_num
  · intro i hi hnone
    simp only [maGenerateSignals, genOverlapSignals]
    rw [getD_range_map _ _ _ _ hi]
    exact overlapValue_none _ _ _ hnone

/-- Witness for C6: with lead 2, lag 3, mode 3 on closes `[1, 2, 3]`,
bar 0 is in the warm-up region of the lead EMA and carries 0. -/
theorem claim6_warmup_is_neutral_witness :
    (maGenerateSignals 2 3 3 [1, 2, 3]).getD 0 0 = 0 := by
  have h := claim6_warmup_is_neutral 2 3 3 [1, 2, 3]
  exact h.2.2 0 (by norm_num) (Or.inl rfl)

/-- Claim C7: for a resampled signal of length `m` dividing the native
length `n` with `factor = n / m`, `interpolate` yields 0 on the first
`factor` bars and `s[(i / factor) - 1]` on every later bar `i`: each
resampled value takes effect only from the bar after the one it was
computed on (one-step forward shift before broadcasting). -/
theorem claim7_interpolate_causal (s : List ℚ) (n : ℕ)
    (hne : s ≠ []) (hdvd : s.length ∣ n) :
    ∀ i : ℕ, i < n →
      (interpolate s n).getD i 0 =
        if i < n / s.length then 0
        else s.getD (i / (n / s.length) - 1) 0 := by
  intro i hi
  have hm : 0 < s.length := List.length_pos.mpr hne
  have hn0 : 0 < n := Nat.pos_of_ne_zero (by rintro rfl; omega)
  have hmn : s.length ≤ n := Nat.le_of_dvd hn0 hdvd
  have hfpos : 0 < n / s.length := Nat.div_pos hmn hm
  have hfm : n / s.length * s.length = n := Nat.div_mul_cancel hdvd
  have hfn : n / s.length ≤ n := Nat.div_le_self n s.length
  simp only [interpolate]
  rw [getD_range_map _ _ _ _ hi]
  by_cases hif : i < n / s.length
  · rw [if_pos hif, if_pos hif]
  · rw [if_neg hif, if_neg hif]
    push_neg at hif
    rw [getD_range_map _ _ _ _ hi]
    have hmod : (i + (n - n / s.length)) % n = i - n / s.length := by
      have h1 : i + (n - n / s.length) = (i - n / s.length) + n := by omega
      rw [h1, Nat.add_mod_right]
      exact Nat.mod_eq_of_lt (by omega)
    rw [hmod, getD_range_map _ _ _ _ (show i - n / s.length < n by omega)]
    rw [if_pos (by rw [hfm]; omega)]
    rw [getD_repeatEach (n / s.length) hfpos s (i - n / s.length)
      (by rw [hfm]; omega)]
    have hdiv : i / (n / s.length) = (i - n / s.length) / (n / s.length) + 1 :=
      Nat.div_eq_sub_div hfpos hif
    congr 1
    rw [hdiv, Nat.add_sub_cancel]

/-- Witness for C7: interpolating `[5, 7]` to length 4 (factor 2) yields
`[0, 0, 5, 5]`: bar 0 is zeroed and bar 2 carries `s[0]`. -/
theorem claim7_interpolate_causal_witness :
    (interpolate [5, 7] 4).getD 0 0 = 0 ∧
      (interpolate [5, 7] 4).getD 2 0 = 5 := by
  have h := claim7_interpolate_causal [5, 7] 4 (by simp) (by norm_num)
  constructor
  · rw [h 0 (by norm_num)]
    norm_num
  · rw [h 2 (by norm_num)]
    norm_num

end TradingBot
